import Mathlib

/-!
Shallow embedding of `include/dbus/properties.hpp` from the boost-dbus
repository: the D-Bus service-side object model (interfaces with property
tables and diff-based change notification, objects with the standard
Properties interface, and the object server with path routing and
introspection-XML synthesis).

The property-value type `dbus_variant` lives in the external message layer
and only needs equality and a type-signature mapping here, so the embedding
is parametric in a value type `V` with `DecidableEq V`, and the introspection
code takes the signature mapping as a function `V → String`.

`boost::container::flat_map<std::string, T>` is modelled as an association
list sorted by key (`FlatMap`): `fmFind?` is `find`, `fmInsert` is
`operator[] = value` (insert at the sorted position, or overwrite the mapped
value in place), and `fmEmplace` is `emplace` (insert at the sorted position
only when the key is absent).  `boost::container::flat_set<std::string>` is
modelled the same way (`FlatSet`).
-/

abbrev FlatMap (α : Type) := List (String × α)

/-- Lexicographic comparison of character lists by code point, the order
`std::less<std::string>` induces on the ASCII path strings and member names
this model manipulates. -/
def charsLt : List Char → List Char → Bool
  | [], [] => false
  | [], _ :: _ => true
  | _ :: _, [] => false
  | a :: as, b :: bs =>
    if a.toNat < b.toNat then true
    else if b.toNat < a.toNat then false
    else charsLt as bs

/-- `std::less<std::string>`, the key order of every
`boost::container::flat_map`/`flat_set` in the source. -/
def strLt (a b : String) : Bool :=
  charsLt a.data b.data

/-- `flat_map::find`: the value stored under key `k`, if any. -/
def fmFind? {α : Type} (k : String) : FlatMap α → Option α
  | [] => none
  | (k', v') :: rest => if k = k' then some v' else fmFind? k rest

/-- `flat_map::operator[] = v`: overwrite in place when the key is present,
otherwise insert at the sorted position. -/
def fmInsert {α : Type} (k : String) (v : α) : FlatMap α → FlatMap α
  | [] => [(k, v)]
  | (k', v') :: rest =>
    if strLt k k' then (k, v) :: (k', v') :: rest
    else if k = k' then (k, v) :: rest
    else (k', v') :: fmInsert k v rest

/-- `flat_map::emplace`: insert at the sorted position only when the key is
absent; an existing mapping for the key is kept unchanged. -/
def fmEmplace {α : Type} (k : String) (v : α) : FlatMap α → FlatMap α
  | [] => [(k, v)]
  | (k', v') :: rest =>
    if strLt k k' then (k, v) :: (k', v') :: rest
    else if k = k' then (k', v') :: rest
    else (k', v') :: fmEmplace k v rest

/-- The `flat_map` class invariant: keys strictly increase. -/
def fmSorted {α : Type} : FlatMap α → Bool
  | [] => true
  | [_] => true
  | p :: q :: rest => strLt p.1 q.1 && fmSorted (q :: rest)

abbrev FlatSet := List String

def fsMember (x : String) : FlatSet → Bool
  | [] => false
  | y :: rest => if x = y then true else fsMember x rest

def fsInsert (x : String) : FlatSet → FlatSet
  | [] => [x]
  | y :: rest =>
    if strLt x y then x :: y :: rest
    else if x = y then y :: rest
    else y :: fsInsert x rest

/-- `struct DbusArgument { std::string direction; std::string name;
std::string type; }` (properties.hpp lines 12-19). -/
structure DbusArgument where
  direction : String
  name : String
  type : String
deriving DecidableEq

/-- `enum class UpdateType { VALUE_CHANGE_ONLY, FORCE }` (line 31). -/
inductive UpdateType where
  | VALUE_CHANGE_ONLY
  | FORCE
deriving DecidableEq

/-- The recursive `arg_types<I>(bool in, tuple&, vector&)` template
(lines 112-133).  A handler's tuple of parameter (or result) types is
represented by the list of its `element_signature` codes; index `I` threads
through the recursion and names the descriptors `arg_I` / `out_I`. -/
def arg_types (in_ : Bool) : Nat → List String → List DbusArgument
  | _, [] => []
  | I, sig :: rest =>
    if in_ then
      ⟨"in", "arg_" ++ toString I, sig⟩ :: arg_types in_ (I + 1) rest
    else
      ⟨"out", "out_" ++ toString I, sig⟩ :: arg_types in_ (I + 1) rest

/-- `LambdaDbusMethod::get_args` (lines 153-162): the `in` descriptors of the
decayed parameter tuple followed by the `out` descriptors of the result
tuple, both starting at index 0. -/
def get_args (ins outs : List String) : List DbusArgument :=
  arg_types true 0 ins ++ arg_types false 0 outs

variable {V : Type}

/-- The inner update loop of `DbusInterface::set_properties` in
`VALUE_CHANGE_ONLY` mode (lines 216-230), threading the property table and
accumulating the change-set `updates` in entry order.  When a stored value
differs from the supplied one, the source first writes
`properties_map[property.first] = property.second` and then pushes
`*property_map_it`, which after the in-place overwrite holds the new value,
so the change-set entry carries the supplied value. -/
def vco_loop [DecidableEq V] : FlatMap V → List (String × V) → FlatMap V × List (String × V)
  | m, [] => (m, [])
  | m, property :: rest =>
    match fmFind? property.1 m with
    | some stored =>
      if stored ≠ property.2 then
        let r := vco_loop (fmInsert property.1 property.2 m) rest
        (r.1, (property.1, property.2) :: r.2)
      else
        vco_loop m rest
    | none =>
      let r := vco_loop (fmInsert property.1 property.2 m) rest
      (r.1, (property.1, property.2) :: r.2)

/-- The change-set computation of `DbusInterface::set_properties`
(lines 210-231): in `FORCE` mode the source executes only `updates = v` —
the property table itself is never written in that branch — while in
`VALUE_CHANGE_ONLY` mode it runs the diffing loop. -/
def set_properties_updates [DecidableEq V] (m : FlatMap V) (v : List (String × V))
    (update_mode : UpdateType) : FlatMap V × List (String × V) :=
  match update_mode with
  | .FORCE => (m, v)
  | .VALUE_CHANGE_ONLY => vco_loop m v

/-- The `PropertiesChanged` signal assembled at the end of
`set_properties` (lines 233-242): a signal on the function-local static
endpoint `("org.freedesktop.DBus", object_name,
"org.freedesktop.DBus.Properties")`, packing
`(interface_name, updates, empty)`.  `path` is the endpoint's path — the
`object_name` latched by the static's one-time initialization, see
`DbusInterface.set_properties`. -/
structure PropertiesChangedSignal (V : Type) where
  path : String
  interface_name : String
  changed_properties : List (String × V)
  invalidated_properties : List String
deriving DecidableEq

/-- Wire values appearing in message bodies: the handlers installed by
`DbusObject` unpack strings and `dbus_variant`s and pack variants and
string-to-variant dictionaries. -/
inductive WireVal (V : Type) where
  | str (s : String)
  | var (v : V)
  | dict (d : List (String × V))

/-- The behaviour bound to a registered method.  The three `prop*`
constructors are the lambdas installed by the `DbusObject` constructor
(lines 279-330); `user` is an arbitrary `LambdaDbusMethod` handler, whose
`call` (lines 144-151) unpacks the body, applies the bound function and
replies with the packed result. -/
inductive MethodImpl (V : Type) where
  | propGet
  | propGetAll
  | propSet
  | user (f : List (WireVal V) → List (WireVal V))

/-- `class DbusMethod` (lines 21-29) together with its
`LambdaDbusMethod` refinement: the registered name, the cached
`get_args()` descriptors and the bound behaviour. -/
structure DbusMethod (V : Type) where
  name : String
  args : List DbusArgument
  impl : MethodImpl V

/-- `class DbusSignal` (lines 166-172): a name plus `get_args()` metadata. -/
structure DbusSignal where
  name : String
  args : List DbusArgument
deriving DecidableEq

/-- `class DbusInterface` (lines 174-271): `object_name` is the
back-reference stamped by `DbusObject::register_interface`; the three
tables are `boost::container::flat_map`s. -/
structure DbusInterface (V : Type) where
  object_name : String
  interface_name : String
  dbus_methods : FlatMap (DbusMethod V)
  dbus_signals : FlatMap DbusSignal
  properties_map : FlatMap V

/-- `DbusInterface::set_properties` (lines 204-243): compute the change-set
(writing the table only in `VALUE_CHANGE_ONLY` mode), then unconditionally
build a `PropertiesChanged` signal packing
`(interface_name, updates, empty)` and `async_send` it (fire and forget).
The signal's endpoint is a function-local `const static` (lines 233-234):
it is constructed once, on the first execution of `set_properties` anywhere
in the process, capturing that call's `object_name` as the endpoint path,
and is reused by every later call from any interface.  The latched path is
threaded explicitly as `endpoint_static` (`none` before the first call);
the call returns the updated interface, the emitted signals, and the
updated static. -/
def DbusInterface.set_properties [DecidableEq V] (iface : DbusInterface V)
    (v : List (String × V)) (update_mode : UpdateType)
    (endpoint_static : Option String) :
    (DbusInterface V × List (PropertiesChangedSignal V)) × Option String :=
  let r := set_properties_updates iface.properties_map v update_mode
  let endpoint_path :=
    match endpoint_static with
    | some latched => latched
    | none => iface.object_name
  (({ iface with properties_map := r.1 },
    [{ path := endpoint_path,
       interface_name := iface.interface_name,
       changed_properties := r.2,
       invalidated_properties := [] }]),
   some endpoint_path)

/-- `DbusInterface::register_method` (lines 245-253): both overloads reduce
to `dbus_methods.emplace(name, method)`, which keeps an existing mapping. -/
def DbusInterface.register_method (iface : DbusInterface V) (name : String)
    (method : DbusMethod V) : DbusInterface V :=
  { iface with dbus_methods := fmEmplace name method iface.dbus_methods }

/-- An incoming method-call message as seen by the routing code:
`get_path()`, `get_interface()`, `get_member()` and the packed body. -/
structure CallMessage (V : Type) where
  path : String
  interface_name : String
  member : String
  body : List (WireVal V)

/-- Messages pushed to the connection while handling a call: method returns
(`message::new_return` + `pack` + `send`) and `PropertiesChanged` signals. -/
inductive SentMessage (V : Type) where
  | methodReturn (body : List (WireVal V))
  | propertiesChanged (s : PropertiesChangedSignal V)

/-- Errors thrown by the built-in Properties handlers:
`std::runtime_error("interface not found")` and
`std::runtime_error("property not found")`. -/
inductive DbusError where
  | interfaceNotFound
  | propertyNotFound
deriving DecidableEq

/-- `class DbusObject` (lines 273-377): the absolute path and the
interface table.  `properties_iface` is the interface registered by the
constructor under `"org.freedesktop.DBus.Properties"`; it is recovered from
the table by `properties_iface_map` below (the source keeps it aliased
through a `shared_ptr`). -/
structure DbusObject (V : Type) where
  object_name : String
  interfaces : FlatMap (DbusInterface V)

/-- The property table of the object's own `properties_iface`, i.e. the
interface stored under `"org.freedesktop.DBus.Properties"`. -/
def DbusObject.properties_iface_map (o : DbusObject V) : FlatMap V :=
  match fmFind? "org.freedesktop.DBus.Properties" o.interfaces with
  | some iface => iface.properties_map
  | none => []

/-- The `Get` lambda registered by the `DbusObject` constructor
(lines 279-296): interface lookup, then property lookup in the *found*
interface's table, returning the stored value. -/
def DbusObject.Get (o : DbusObject V) (interface_name property_name : String) :
    Except DbusError V :=
  match fmFind? interface_name o.interfaces with
  | none => .error .interfaceNotFound
  | some iface =>
    match fmFind? property_name iface.properties_map with
    | none => .error .propertyNotFound
    | some property => .ok property

/-- The `GetAll` lambda registered by the `DbusObject` constructor
(lines 298-311).  After checking that `interface_name` is registered, the
source loops over `properties_iface->get_properties_map()` — the Properties
interface's own table — not over the table of the interface it just looked
up. -/
def DbusObject.GetAll (o : DbusObject V) (interface_name : String) :
    Except DbusError (List (String × V)) :=
  match fmFind? interface_name o.interfaces with
  | none => .error .interfaceNotFound
  | some _ => .ok o.properties_iface_map

/-- The `Set` lambda registered by the `DbusObject` constructor
(lines 313-330): interface lookup, then a single-entry `set_properties`
call in the default `VALUE_CHANGE_ONLY` mode; the interface-not-found
throw happens before `set_properties` is reached, so the static endpoint
is untouched on that path. -/
def DbusObject.Set [DecidableEq V] (o : DbusObject V)
    (interface_name property_name : String) (value : V)
    (endpoint_static : Option String) :
    Except DbusError
      ((DbusObject V × List (PropertiesChangedSignal V)) × Option String) :=
  match fmFind? interface_name o.interfaces with
  | none => .error .interfaceNotFound
  | some iface =>
    let r := iface.set_properties [(property_name, value)] .VALUE_CHANGE_ONLY
      endpoint_static
    .ok (({ o with interfaces := fmInsert interface_name r.1.1 o.interfaces },
      r.1.2), r.2)

/-- Running a found method's behaviour against the owning object.  The
built-in lambdas throw on lookup failure; the exception escapes
`DbusMethod::call` uncaught, so no reply is produced and the object is left
unmodified in those cases.  A `user` handler replies with its packed
result (`LambdaDbusMethod::call`, lines 144-151).  `endpoint_static` is
the latched `set_properties` endpoint, threaded through because the
`propSet` handler may initialize or reuse it. -/
def run_method [DecidableEq V] (o : DbusObject V) (impl : MethodImpl V)
    (m : CallMessage V) (endpoint_static : Option String) :
    (DbusObject V × List (SentMessage V)) × Option String :=
  match impl with
  | .user f => ((o, [.methodReturn (f m.body)]), endpoint_static)
  | .propGet =>
    match m.body with
    | [.str interface_name, .str property_name] =>
      match o.Get interface_name property_name with
      | .ok value => ((o, [.methodReturn [.var value]]), endpoint_static)
      | .error _ => ((o, []), endpoint_static)
    | _ => ((o, []), endpoint_static)
  | .propGetAll =>
    match m.body with
    | [.str interface_name] =>
      match o.GetAll interface_name with
      | .ok v => ((o, [.methodReturn [.dict v]]), endpoint_static)
      | .error _ => ((o, []), endpoint_static)
    | _ => ((o, []), endpoint_static)
  | .propSet =>
    match m.body with
    | [.str interface_name, .str property_name, .var value] =>
      match o.Set interface_name property_name value endpoint_static with
      | .ok r =>
        ((r.1.1, (r.1.2.map SentMessage.propertiesChanged) ++ [.methodReturn []]),
          r.2)
      | .error _ => ((o, []), endpoint_static)
    | _ => ((o, []), endpoint_static)

/-- `DbusInterface::call` (lines 255-261): look the member up in
`dbus_methods` and run it when found; otherwise do nothing
("TODO(ed) send something when method doesn't exist?"). -/
def interface_call [DecidableEq V] (o : DbusObject V) (iface : DbusInterface V)
    (m : CallMessage V) (endpoint_static : Option String) :
    (DbusObject V × List (SentMessage V)) × Option String :=
  match fmFind? m.member iface.dbus_methods with
  | some method => run_method o method.impl m endpoint_static
  | none => ((o, []), endpoint_static)

/-- `DbusObject::call` (lines 361-366): route by `get_interface()`; an
unknown interface is silently dropped. -/
def DbusObject.call [DecidableEq V] (o : DbusObject V) (m : CallMessage V)
    (endpoint_static : Option String) :
    (DbusObject V × List (SentMessage V)) × Option String :=
  match fmFind? m.interface_name o.interfaces with
  | some iface => interface_call o iface m endpoint_static
  | none => ((o, []), endpoint_static)

/-- `class DbusObjectServer` (lines 379-635): the registered object list,
in registration order (`register_object` appends). -/
structure DbusObjectServer (V : Type) where
  objects : List (DbusObject V)

/-- The routing loop of `DbusObjectServer::on_method_call` (lines 456-461):
scan the object vector, dispatch to the first object whose `object_name`
equals the call's path, and `break`; objects before the match are kept as
they are. -/
def scan_objects [DecidableEq V] :
    List (DbusObject V) → CallMessage V → Option String →
      (List (DbusObject V) × List (SentMessage V)) × Option String
  | [], _, endpoint_static => (([], []), endpoint_static)
  | o :: rest, m, endpoint_static =>
    if o.object_name = m.path then
      let r := o.call m endpoint_static
      ((r.1.1 :: rest, r.1.2), r.2)
    else
      let r := scan_objects rest m endpoint_static
      ((o :: r.1.1, r.1.2), r.2)

/-- `DbusObjectServer::on_method_call` (lines 449-467), minus the
re-arming of the one-shot filter: route the call through the object list
and return the updated server, every message sent, and the (possibly newly
latched) `set_properties` static endpoint. -/
def on_method_call [DecidableEq V] (s : DbusObjectServer V) (m : CallMessage V)
    (endpoint_static : Option String) :
    (DbusObjectServer V × List (SentMessage V)) × Option String :=
  let r := scan_objects s.objects m endpoint_static
  ((⟨r.1.1⟩, r.1.2), r.2)

/-- First object whose `object_name` equals `path`, mirroring the scan
order of `on_method_call`. -/
def lookup_object (path : String) : List (DbusObject V) → Option (DbusObject V)
  | [] => none
  | o :: rest => if o.object_name = path then some o else lookup_object path rest

/-- A call is unrouted when no object matches its path, or the matched
object lacks the interface, or the matched interface lacks the member. -/
def unrouted_list (objs : List (DbusObject V)) (m : CallMessage V) : Bool :=
  match lookup_object m.path objs with
  | none => true
  | some o =>
    match fmFind? m.interface_name o.interfaces with
    | none => true
    | some iface => (fmFind? m.member iface.dbus_methods).isNone

/-- `unrouted_list` over the server's registered objects. -/
def unrouted (s : DbusObjectServer V) (m : CallMessage V) : Bool :=
  unrouted_list s.objects m

/-- `DbusObjectServer::on_get_managed_objects` (lines 469-501): the nested
snapshot `[(object_path, [(interface_name, properties)])]` packed into the
reply, built in object-registration order and interface-table order. -/
def get_managed_objects (s : DbusObjectServer V) :
    List (String × List (String × List (String × V))) :=
  s.objects.map fun o =>
    (o.object_name, o.interfaces.map fun ip => (ip.2.interface_name, ip.2.properties_map))

/-- `boost::starts_with(input, test)` on path strings. -/
def starts_with (input test : String) : Bool :=
  test.data.isPrefixOf input.data

/-- `std::string::find(c, start)` returning an index instead of `npos`. -/
def cppFind (s : String) (c : Char) (start : Nat) : Option Nat :=
  match (s.data.drop start).findIdx? (fun x => x = c) with
  | none => none
  | some i => some (start + i)

/-- `std::string::substr(pos, count)` (a too-large `count`, such as the one
arising from `npos` arithmetic, takes the rest of the string). -/
def cppSubstr (s : String) (pos count : Nat) : String :=
  String.mk ((s.data.drop pos).take count)

/-- The fixed header of every introspection document (lines 521-525):
the DTD declaration and the opening root `<node>`. -/
def xml_header : String :=
  "<!DOCTYPE node PUBLIC \"-//freedesktop//DTD D-BUS Object Introspection 1.0//EN\" \"http://www.freedesktop.org/standards/dbus/1.0/introspect.dtd\">\n<node>"

/-- The fixed `org.freedesktop.DBus.Peer` block contributed by an
exact-match object (lines 530-536); adjacent C++ string literals
concatenate without separators. -/
def peer_xml : String :=
  "  <interface name=\"org.freedesktop.DBus.Peer\">" ++
  "    <method name=\"Ping\"/>" ++
  "    <method name=\"GetMachineId\">" ++
  "      <arg type=\"s\" name=\"machine_uuid\" direction=\"out\"/>" ++
  "    </method>" ++
  "  </interface>"

/-- The fixed `org.freedesktop.DBus.ObjectManager` block contributed by an
exact-match object (lines 538-554). -/
def object_manager_xml : String :=
  "  <interface name=\"org.freedesktop.DBus.ObjectManager\">" ++
  "    <method name=\"GetManagedObjects\">" ++
  "      <arg type=\"a\x7boa\x7bsa\x7bsv\x7d\x7d\x7d\" " ++
  "           name=\"object_paths_interfaces_and_properties\" " ++
  "           direction=\"out\"/>" ++
  "    </method>" ++
  "    <signal name=\"InterfacesAdded\">" ++
  "      <arg type=\"o\" name=\"object_path\"/>" ++
  "      <arg type=\"a\x7bsa\x7bsv\x7d\x7d\" " ++
  "name=\"interfaces_and_properties\"/>" ++
  "    </signal>" ++
  "    <signal name=\"InterfacesRemoved\">" ++
  "      <arg type=\"o\" name=\"object_path\"/>" ++
  "      <arg type=\"as\" name=\"interfaces\"/>" ++
  "    </signal>" ++
  "  </interface>"

/-- Method argument rendering inside `get_xml_for_path` (lines 564-572). -/
def method_args_xml (args : List DbusArgument) : String :=
  args.foldl (fun acc a =>
    acc ++ "<arg name=\"" ++ a.name ++ "\" type=\"" ++ a.type ++
      "\" direction=\"" ++ a.direction ++ "\"/>") ""

/-- Signal argument rendering (lines 580-586): direction is omitted. -/
def signal_args_xml (args : List DbusArgument) : String :=
  args.foldl (fun acc a =>
    acc ++ "<arg name=\"" ++ a.name ++ "\" type=\"" ++ a.type ++ "\"/>") ""

/-- One `<interface>` block of the exact-match branch (lines 556-611):
methods, then signals, then properties (their type via the
`element_signature` visitor `sig`, the access mode hardcoded to
`readwrite`; the source writes `type =` and `direction =` with a space). -/
def interface_xml (sig : V → String) (name : String) (iface : DbusInterface V) : String :=
  "<interface name=\"" ++ name ++ "\">" ++
  iface.dbus_methods.foldl (fun acc mp =>
    acc ++ "<method name=\"" ++ mp.1 ++ "\">" ++ method_args_xml mp.2.args ++ "</method>") "" ++
  iface.dbus_signals.foldl (fun acc sp =>
    acc ++ "<signal name=\"" ++ sp.1 ++ "\">" ++ signal_args_xml sp.2.args ++ "</signal>") "" ++
  iface.properties_map.foldl (fun acc pp =>
    acc ++ "<property name=\"" ++ pp.1 ++ "\" type =\"" ++ sig pp.2 ++
      "\" direction =\"" ++ "readwrite" ++ "\"/>") "" ++
  "</interface>"

/-- The per-object step of the `get_xml_for_path` loop (lines 526-624),
threading the `node_names` flat_set and the document text.  An object whose
name equals `newpath` contributes the fixed Peer and ObjectManager blocks
plus one block per registered interface; otherwise, when
`boost::starts_with(object_name, newpath)` holds, the segment between
position `newpath.size() + 1` and the next `/` is emitted as a `<node>`
stub unless already present in the set. -/
def xml_step (sig : V → String) (newpath : String) (st : FlatSet × String)
    (object : DbusObject V) : FlatSet × String :=
  if object.object_name = newpath then
    (st.1, st.2 ++ peer_xml ++ object_manager_xml ++
      object.interfaces.foldl (fun acc ip => acc ++ interface_xml sig ip.1 ip.2) "")
  else if starts_with object.object_name newpath then
    let slash_index := cppFind object.object_name '/' (newpath.length + 1)
    let subnode := cppSubstr object.object_name (newpath.length + 1)
      (match slash_index with
       | none => object.object_name.length
       | some i => i - newpath.length - 1)
    if fsMember subnode st.1 then st
    else (fsInsert subnode st.1,
      st.2 ++ "<node name=\"" ++ subnode ++ "\"></node>")
  else st

/-- `DbusObjectServer::get_xml_for_path` (lines 513-627): normalize `"/"`
to the empty string, fold the step over the registered objects starting
from the fixed header, and close the root node. -/
def get_xml_for_path (sig : V → String) (s : DbusObjectServer V) (path : String) : String :=
  let newpath := if path = "/" then "" else path
  let r := s.objects.foldl (xml_step sig newpath) (([] : FlatSet), xml_header)
  r.2 ++ "</node>"

/-- The `Get` method installed by the `DbusObject` constructor: parameters
`(string, string)`, result `tuple<dbus_variant>`, so `get_args` sees
signatures `["s", "s"]` and `["v"]`. -/
def propGetMethod : DbusMethod V :=
  ⟨"Get", get_args ["s", "s"] ["v"], .propGet⟩

/-- The `GetAll` method: parameter `(string)`, result
`tuple<vector<pair<string, dbus_variant>>>` with signature `a{sv}`. -/
def propGetAllMethod : DbusMethod V :=
  ⟨"GetAll", get_args ["s"] ["a\x7bsv\x7d"], .propGetAll⟩

/-- The `Set` method: parameters `(string, string, dbus_variant)`, empty
result tuple. -/
def propSetMethod : DbusMethod V :=
  ⟨"Set", get_args ["s", "s", "v"] [], .propSet⟩

/-- The `DbusObject` constructor (lines 275-331): a fresh object holds the
`org.freedesktop.DBus.Properties` interface with the three standard
methods (the `InterfacesAdded` emission performed by `register_interface`
is not tracked here; no claim concerns it). -/
def DbusObject.init (object_name : String) : DbusObject V :=
  { object_name := object_name,
    interfaces := [("org.freedesktop.DBus.Properties",
      { object_name := object_name,
        interface_name := "org.freedesktop.DBus.Properties",
        dbus_methods :=
          [("Get", propGetMethod), ("GetAll", propGetAllMethod), ("Set", propSetMethod)],
        dbus_signals := [],
        properties_map := [] })] }

/-- Whether the property table of interface `iname` on object `o` has an
entry under `k`. -/
def hasProp (o : DbusObject V) (iname k : String) : Bool :=
  match fmFind? iname o.interfaces with
  | none => false
  | some iface => (fmFind? k iface.properties_map).isSome

/-- Pointwise growth of property-table key sets between two object states. -/
def prop_keys_grow (o o' : DbusObject V) : Prop :=
  ∀ iname k, hasProp o iname k = true → hasProp o' iname k = true

/-- `element_signature` instantiated for the concrete value type `Nat`
used by the closed test fixtures (`int` signature code `"i"`). -/
def sigNat : Nat → String := fun _ => "i"

/-- Fixture: an interface whose table stores `a ↦ 1`. -/
def iface1 : DbusInterface Nat := ⟨"/o", "I", [], [], [("a", 1)]⟩

/-- Fixture: an interface `I` with table `x ↦ 5`. -/
def ifaceI : DbusInterface Nat := ⟨"/o", "I", [], [], [("x", 5)]⟩

/-- Fixture: an object carrying `ifaceI` next to the standard Properties
interface installed by the constructor (whose own table is empty). -/
def obj3 : DbusObject Nat :=
  { object_name := "/o",
    interfaces := [("I", ifaceI),
      ("org.freedesktop.DBus.Properties",
        ⟨"/o", "org.freedesktop.DBus.Properties",
          [("Get", propGetMethod), ("GetAll", propGetAllMethod), ("Set", propSetMethod)],
          [], []⟩)] }

/-- Fixture for the Properties.Get lookup witness. -/
def iface5 : DbusInterface Nat := ⟨"/o5", "I", [], [], [("x", 5)]⟩

/-- Fixture object holding `iface5`. -/
def obj5 : DbusObject Nat := ⟨"/o5", [("I", iface5)]⟩

/-- Fixture: a server with one object registered at `/ab`. -/
def server7 : DbusObjectServer Nat := ⟨[DbusObject.init "/ab"]⟩

/-- Fixture: a server with one object registered at `/o8`. -/
def server8 : DbusObjectServer Nat := ⟨[DbusObject.init "/o8"]⟩

/-- Fixture: a call addressed to a path with no registered object. -/
def msg8 : CallMessage Nat := ⟨"/nope", "I", "M", []⟩

/-- Fixtures for duplicate method registration. -/
def method10a : DbusMethod Nat := ⟨"M", [], .propGet⟩

/-- A second, different handler registered under the same name. -/
def method10b : DbusMethod Nat := ⟨"M", [], .propSet⟩

/-- Fixture interface already holding a method named `M`. -/
def iface10 : DbusInterface Nat := ⟨"/o10", "I", [("M", method10a)], [], []⟩


/-! ## Library lemmas about the flat_map model -/

theorem fmFind?_fmInsert_self {α : Type} (k : String) (v : α) (m : FlatMap α) :
    fmFind? k (fmInsert k v m) = some v := by
  induction m with
  | nil => simp [fmInsert, fmFind?]
  | cons p rest ih =>
    obtain ⟨k', v'⟩ := p
    cases h1 : strLt k k' with
    | true => simp [fmInsert, h1, fmFind?]
    | false =>
      by_cases h2 : k = k'
      · subst h2
        simp [fmInsert, h1, fmFind?]
      · simp [fmInsert, h1, h2, fmFind?, ih]

theorem fmFind?_fmInsert_ne {α : Type} {k j : String} (v : α) (m : FlatMap α)
    (hne : j ≠ k) : fmFind? j (fmInsert k v m) = fmFind? j m := by
  induction m with
  | nil => simp [fmInsert, fmFind?, hne]
  | cons p rest ih =>
    obtain ⟨k', v'⟩ := p
    cases h1 : strLt k k' with
    | true => simp [fmInsert, h1, fmFind?, hne]
    | false =>
      by_cases h2 : k = k'
      · subst h2
        simp [fmInsert, h1, fmFind?, hne]
      · simp [fmInsert, h1, h2, fmFind?, ih]

theorem fmFind?_fmInsert_isSome {α : Type} (k j : String) (v : α) (m : FlatMap α)
    (h : (fmFind? j m).isSome = true) :
    (fmFind? j (fmInsert k v m)).isSome = true := by
  by_cases hjk : j = k
  · subst hjk
    simp [fmFind?_fmInsert_self]
  · rw [fmFind?_fmInsert_ne v m hjk]
    exact h

theorem vco_loop_mono {W : Type} [DecidableEq W] (v : List (String × W)) :
    ∀ (m : FlatMap W) (k : String), (fmFind? k m).isSome = true →
      (fmFind? k (vco_loop m v).1).isSome = true := by
  induction v with
  | nil =>
    intro m k h
    simpa [vco_loop] using h
  | cons p rest ih =>
    intro m k h
    obtain ⟨name, value⟩ := p
    cases hf : fmFind? name m with
    | none =>
      simp only [vco_loop, hf]
      exact ih _ k (fmFind?_fmInsert_isSome name k value m h)
    | some stored =>
      by_cases heq : stored = value
      · subst heq
        simp only [vco_loop, hf, ne_eq, not_true_eq_false, if_false, ite_false]
        exact ih m k h
      · simp only [vco_loop, hf, ne_eq, heq, not_false_eq_true, if_true, ite_true]
        exact ih _ k (fmFind?_fmInsert_isSome name k value m h)

theorem set_properties_updates_mono {W : Type} [DecidableEq W] (m : FlatMap W)
    (v : List (String × W)) (update_mode : UpdateType) (k : String)
    (h : (fmFind? k m).isSome = true) :
    (fmFind? k (set_properties_updates m v update_mode).1).isSome = true := by
  cases update_mode with
  | FORCE => simpa [set_properties_updates] using h
  | VALUE_CHANGE_ONLY =>
    simpa [set_properties_updates] using vco_loop_mono v m k h

/-! ## Claim theorems -/

/-- Claim C1 (code bug): with update mode `FORCE`, `set_properties` emits the
supplied entries as the change-set but never writes them into the property
table.  On an interface whose table stores `a ↦ 1`, forcing `a ↦ 2` leaves
the stored value at `1` while the emitted change-set announces `a ↦ 2`, so
the claimed "writes every entry of v into the interface's property table"
fails on the code. -/
theorem force_mode_emits_but_does_not_store :
    (iface1.set_properties [("a", 2)] .FORCE none).1.1.properties_map = [("a", 1)] ∧
    ((iface1.set_properties [("a", 2)] .FORCE none).1.2.map
      PropertiesChangedSignal.changed_properties) = [[("a", 2)]] :=
  ⟨rfl, rfl⟩

/-- Claim C3 (code bug): the `GetAll` handler checks that the requested
interface exists but then iterates `properties_iface->get_properties_map()`,
the Properties interface's own table.  On an object whose interface `I`
stores `x ↦ 5` (and whose Properties interface stores nothing),
`GetAll("I")` returns the empty list, not `I`'s table; an unknown interface
still fails with the interface-not-found error. -/
theorem getall_reads_properties_iface_table :
    obj3.GetAll "I" = .ok ([] : List (String × Nat)) ∧
    (fmFind? "I" obj3.interfaces).map DbusInterface.properties_map = some [("x", 5)] ∧
    obj3.GetAll "NoSuchIface" = .error .interfaceNotFound :=
  ⟨rfl, rfl, rfl⟩

/-- Claim C4 (counterexample): `set_properties` sends the
`PropertiesChanged` signal unconditionally.  Setting `a ↦ 1` on an
interface already storing `a ↦ 1` in `VALUE_CHANGE_ONLY` mode computes an
empty change-set, yet exactly one signal (carrying an empty changed list)
is still emitted, contradicting "when the change-set is empty, no signal is
sent". -/
theorem properties_changed_sent_on_empty_changeset :
    (set_properties_updates [("a", (1 : Nat))] [("a", 1)] .VALUE_CHANGE_ONLY).2 = [] ∧
    ((iface1.set_properties [("a", 1)] .VALUE_CHANGE_ONLY none).1.2.map
      PropertiesChangedSignal.changed_properties) = [[]] :=
  ⟨rfl, rfl⟩

/-- Claim C4 (amended): every call to `set_properties`, in either mode and
whatever the state of the latched static endpoint, emits exactly one
`PropertiesChanged` signal carrying this interface's name, the computed
change-set and an empty invalidated list — whether or not the change-set
is empty. -/
theorem properties_changed_always_emitted (W : Type) [DecidableEq W]
    (iface : DbusInterface W) (v : List (String × W)) (update_mode : UpdateType)
    (endpoint_static : Option String) :
    ((iface.set_properties v update_mode endpoint_static).1.2.map
      (fun s => (s.interface_name, s.changed_properties, s.invalidated_properties))) =
      [(iface.interface_name,
        (set_properties_updates iface.properties_map v update_mode).2,
        ([] : List String))] :=
  rfl

/-- Claim C7 (code bug): the introspection synthesis matches descendants
with `boost::starts_with(object_name, newpath)` and never checks that the
next character is `/`.  With a single object registered at `/ab`,
introspecting `/a` — whose claimed strict-descendant set (prefix `/a/`) is
empty — still produces a `<node name="">` stub, because `/ab` extends `/a`
as a raw string prefix. -/
theorem introspect_stub_for_non_descendant :
    starts_with "/ab" ("/a" ++ "/") = false ∧
    get_xml_for_path sigNat server7 "/a" =
      xml_header ++ "<node name=\"\"></node>" ++ "</node>" :=
  ⟨rfl, rfl⟩

/-- Claim C2 (confirmed): in `VALUE_CHANGE_ONLY` mode each supplied entry is
processed against the current table — an absent name is inserted and
included in the change-set, a present name with a different value is
overwritten and included with its new value, and a present name with an
equal value is neither rewritten nor included — and the worked example from
table `{a:1, b:2}` with entries `{a:1, c:3}` yields change-set `{c:3}` and
final table `{a:1, b:2, c:3}`. -/
theorem value_change_only_diffing :
    (∀ (W : Type) [DecidableEq W] (m : FlatMap W) (v : List (String × W))
        (k : String) (val : W), fmFind? k m = none →
      set_properties_updates m ((k, val) :: v) .VALUE_CHANGE_ONLY =
        ((set_properties_updates (fmInsert k val m) v .VALUE_CHANGE_ONLY).1,
         (k, val) :: (set_properties_updates (fmInsert k val m) v .VALUE_CHANGE_ONLY).2)) ∧
    (∀ (W : Type) [DecidableEq W] (m : FlatMap W) (v : List (String × W))
        (k : String) (stored val : W), fmFind? k m = some stored → stored ≠ val →
      set_properties_updates m ((k, val) :: v) .VALUE_CHANGE_ONLY =
        ((set_properties_updates (fmInsert k val m) v .VALUE_CHANGE_ONLY).1,
         (k, val) :: (set_properties_updates (fmInsert k val m) v .VALUE_CHANGE_ONLY).2)) ∧
    (∀ (W : Type) [DecidableEq W] (m : FlatMap W) (v : List (String × W))
        (k : String) (val : W), fmFind? k m = some val →
      set_properties_updates m ((k, val) :: v) .VALUE_CHANGE_ONLY =
        set_properties_updates m v .VALUE_CHANGE_ONLY) ∧
    set_properties_updates [("a", (1 : Nat)), ("b", 2)] [("a", 1), ("c", 3)]
        .VALUE_CHANGE_ONLY =
      ([("a", 1), ("b", 2), ("c", 3)], [("c", 3)]) := by
  refine ⟨?_, ?_, ?_, rfl⟩
  · intro W _ m v k val h
    simp only [set_properties_updates, vco_loop, h]
  · intro W _ m v k stored val h hne
    simp only [set_properties_updates, vco_loop, h, ne_eq, hne, not_false_eq_true, ite_true]
  · intro W _ m v k val h
    simp only [set_properties_updates, vco_loop, h, ne_eq, not_true_eq_false, ite_false]

/-- Witness for C2: each hypothesis of `value_change_only_diffing`
discharged at a concrete input (insertion of an absent name, and skipping
of a present unchanged name). -/
theorem value_change_only_diffing_witness :
    (fmFind? "x" ([] : FlatMap Nat) = none ∧
      set_properties_updates ([] : FlatMap Nat) (("x", 1) :: []) .VALUE_CHANGE_ONLY =
        ((set_properties_updates (fmInsert "x" 1 []) [] .VALUE_CHANGE_ONLY).1,
         ("x", 1) :: (set_properties_updates (fmInsert "x" 1 []) [] .VALUE_CHANGE_ONLY).2)) ∧
    (fmFind? "x" [("x", (1 : Nat))] = some 1 ∧
      set_properties_updates [("x", (1 : Nat))] (("x", 1) :: []) .VALUE_CHANGE_ONLY =
        set_properties_updates [("x", (1 : Nat))] [] .VALUE_CHANGE_ONLY) :=
  ⟨⟨rfl, value_change_only_diffing.1 Nat [] [] "x" 1 rfl⟩,
   ⟨rfl, value_change_only_diffing.2.2.1 Nat [("x", 1)] [] "x" 1 rfl⟩⟩

/-- Claim C5 (confirmed): the `Get` handler fails with the
interface-not-found error when the interface is not registered, fails with
the property-not-found error when the interface exists but lacks the
property, and otherwise returns exactly the stored value. -/
theorem properties_get_lookup (W : Type) (o : DbusObject W)
    (interface_name property_name : String) :
    (fmFind? interface_name o.interfaces = none →
      o.Get interface_name property_name = .error .interfaceNotFound) ∧
    (∀ iface, fmFind? interface_name o.interfaces = some iface →
      fmFind? property_name iface.properties_map = none →
      o.Get interface_name property_name = .error .propertyNotFound) ∧
    (∀ iface value, fmFind? interface_name o.interfaces = some iface →
      fmFind? property_name iface.properties_map = some value →
      o.Get interface_name property_name = .ok value) := by
  refine ⟨?_, ?_, ?_⟩
  · intro h
    simp [DbusObject.Get, h]
  · intro iface h1 h2
    simp [DbusObject.Get, h1, h2]
  · intro iface value h1 h2
    simp [DbusObject.Get, h1, h2]

/-- Witness for C5: the three lookup paths exercised on a concrete
object. -/
theorem properties_get_lookup_witness :
    (fmFind? "I" obj5.interfaces = some iface5 ∧
      fmFind? "x" iface5.properties_map = some 5 ∧
      obj5.Get "I" "x" = .ok 5) ∧
    (fmFind? "J" obj5.interfaces = none ∧
      obj5.Get "J" "x" = .error .interfaceNotFound) ∧
    (fmFind? "y" iface5.properties_map = none ∧
      obj5.Get "I" "y" = .error .propertyNotFound) :=
  ⟨⟨rfl, rfl, (properties_get_lookup Nat obj5 "I" "x").2.2 iface5 5 rfl rfl⟩,
   ⟨rfl, (properties_get_lookup Nat obj5 "J" "x").1 rfl⟩,
   ⟨rfl, (properties_get_lookup Nat obj5 "I" "y").2.1 iface5 rfl rfl⟩⟩

theorem arg_types_length (in_ : Bool) : ∀ (I : Nat) (sigs : List String),
    (arg_types in_ I sigs).length = sigs.length := by
  intro I sigs
  induction sigs generalizing I with
  | nil => simp [arg_types]
  | cons s rest ih => cases in_ <;> simp [arg_types, ih]

theorem arg_types_getElem? (in_ : Bool) :
    ∀ (sigs : List String) (I j : Nat) (hj : j < sigs.length),
      (arg_types in_ I sigs)[j]? =
        some ⟨if in_ then "in" else "out",
              (if in_ then "arg_" else "out_") ++ toString (I + j),
              sigs.get ⟨j, hj⟩⟩ := by
  intro sigs
  induction sigs with
  | nil =>
    intro I j hj
    simp at hj
  | cons s rest ih =>
    intro I j hj
    cases j with
    | zero => cases in_ <;> simp [arg_types]
    | succ j' =>
      have h' : j' < rest.length := by simpa using hj
      have harith : I + (j' + 1) = (I + 1) + j' := by omega
      cases in_ <;>
        simpa [arg_types, harith] using ih (I + 1) j' h'

/-- Claim C6 (confirmed): `get_args` produces exactly the `In` descriptors
`arg_0 .. arg_(n-1)` of the parameter signatures in declaration order,
followed by the `Out` descriptors `out_0 .. out_(m-1)` of the result
signatures, and a handler with no parameters and empty result yields the
empty list. -/
theorem get_args_shape :
    (get_args [] [] = []) ∧
    (∀ (ins outs : List String),
      (get_args ins outs).length = ins.length + outs.length) ∧
    (∀ (ins outs : List String) (i : Nat) (hi : i < ins.length),
      (get_args ins outs)[i]? =
        some ⟨"in", "arg_" ++ toString i, ins.get ⟨i, hi⟩⟩) ∧
    (∀ (ins outs : List String) (j : Nat) (hj : j < outs.length),
      (get_args ins outs)[ins.length + j]? =
        some ⟨"out", "out_" ++ toString j, outs.get ⟨j, hj⟩⟩) := by
  refine ⟨rfl, ?_, ?_, ?_⟩
  · intro ins outs
    simp [get_args, arg_types_length]
  · intro ins outs i hi
    have hlen : i < (arg_types true 0 ins).length := by
      rw [arg_types_length]
      omega
    rw [get_args, List.getElem?_append, if_pos hlen]
    simpa using arg_types_getElem? true ins 0 i hi
  · intro ins outs j hj
    have hlen : (arg_types true 0 ins).length = ins.length :=
      arg_types_length true 0 ins
    have hge : ¬ (ins.length + j < (arg_types true 0 ins).length) := by omega
    rw [get_args, List.getElem?_append, if_neg hge, hlen, Nat.add_sub_cancel_left]
    simpa using arg_types_getElem? false outs 0 j hj

/-- Witness for C6: the descriptor list of the standard `Get` handler
(parameters `(string, string)`, result `tuple<variant>`). -/
theorem get_args_shape_witness :
    ((0 : Nat) < (["s", "s"] : List String).length ∧
      (get_args ["s", "s"] ["v"])[0]? =
        some ⟨"in", "arg_" ++ toString 0,
          (["s", "s"] : List String).get ⟨0, by decide⟩⟩) ∧
    ((0 : Nat) < (["v"] : List String).length ∧
      (get_args ["s", "s"] ["v"])[(["s", "s"] : List String).length + 0]? =
        some ⟨"out", "out_" ++ toString 0,
          (["v"] : List String).get ⟨0, by decide⟩⟩) :=
  ⟨⟨by decide, get_args_shape.2.2.1 ["s", "s"] ["v"] 0 (by decide)⟩,
   ⟨by decide, get_args_shape.2.2.2 ["s", "s"] ["v"] 0 (by decide)⟩⟩

theorem object_call_unrouted {W : Type} [DecidableEq W] (o : DbusObject W)
    (m : CallMessage W) (ep : Option String)
    (h : ∀ iface, fmFind? m.interface_name o.interfaces = some iface →
         fmFind? m.member iface.dbus_methods = none) :
    o.call m ep = ((o, []), ep) := by
  cases hfi : fmFind? m.interface_name o.interfaces with
  | none => simp [DbusObject.call, hfi]
  | some iface => simp [DbusObject.call, hfi, interface_call, h iface hfi]

theorem scan_objects_unrouted {W : Type} [DecidableEq W] :
    ∀ (objs : List (DbusObject W)) (m : CallMessage W) (ep : Option String),
      unrouted_list objs m = true → scan_objects objs m ep = ((objs, []), ep) := by
  intro objs m ep
  induction objs with
  | nil =>
    intro _
    rfl
  | cons o rest ih =>
    intro h
    unfold unrouted_list lookup_object at h
    by_cases hp : o.object_name = m.path
    · rw [if_pos hp] at h
      have hcall : o.call m ep = ((o, []), ep) := by
        apply object_call_unrouted
        intro iface hfi
        simp only [hfi, Option.isNone_iff_eq_none] at h
        exact h
      simp [scan_objects, hp, hcall]
    · rw [if_neg hp] at h
      have hrest : unrouted_list rest m = true := h
      simp [scan_objects, hp, ih hrest]

/-- Claim C8 (confirmed): a method call whose path matches no registered
object, or whose interface is absent from the matched object, or whose
member is absent from the matched interface, produces no outgoing message
of any kind and leaves the server state (and the latched signal endpoint)
unchanged. -/
theorem unrouted_calls_silently_dropped (W : Type) [DecidableEq W]
    (s : DbusObjectServer W) (m : CallMessage W) (ep : Option String)
    (h : unrouted s m = true) :
    on_method_call s m ep = ((s, []), ep) := by
  obtain ⟨objs⟩ := s
  have hs := scan_objects_unrouted objs m ep h
  simp [on_method_call, hs]

/-- Witness for C8: a concrete call addressed to an unregistered path is
dropped without reply or state change. -/
theorem unrouted_calls_silently_dropped_witness :
    unrouted server8 msg8 = true ∧
    on_method_call server8 msg8 none = ((server8, []), none) :=
  ⟨rfl, unrouted_calls_silently_dropped Nat server8 msg8 none rfl⟩

theorem prop_keys_grow_refl {W : Type} (o : DbusObject W) : prop_keys_grow o o :=
  fun _ _ h => h

theorem forall2_grow_refl {W : Type} :
    ∀ (l : List (DbusObject W)), List.Forall₂ prop_keys_grow l l
  | [] => List.Forall₂.nil
  | o :: rest => List.Forall₂.cons (prop_keys_grow_refl o) (forall2_grow_refl rest)

theorem set_ok_grow {W : Type} [DecidableEq W] (o : DbusObject W)
    (interface_name property_name : String) (value : W) (ep : Option String)
    (r : (DbusObject W × List (PropertiesChangedSignal W)) × Option String)
    (heq : o.Set interface_name property_name value ep = .ok r) :
    prop_keys_grow o r.1.1 := by
  cases hfi : fmFind? interface_name o.interfaces with
  | none => simp [DbusObject.Set, hfi] at heq
  | some iface =>
    simp only [DbusObject.Set, hfi] at heq
    obtain ⟨⟨o', sigs⟩, ep2⟩ := r
    simp only [Except.ok.injEq, Prod.mk.injEq] at heq
    obtain ⟨⟨ho, hsig⟩, hep⟩ := heq
    subst ho
    intro iname k hk
    unfold hasProp at hk ⊢
    by_cases hin : iname = interface_name
    · subst hin
      simp only [hfi] at hk
      simp only [fmFind?_fmInsert_self, DbusInterface.set_properties]
      exact set_properties_updates_mono iface.properties_map
        [(property_name, value)] .VALUE_CHANGE_ONLY k hk
    · simp only [fmFind?_fmInsert_ne _ _ hin]
      exact hk

theorem run_method_grow {W : Type} [DecidableEq W] (o : DbusObject W)
    (impl : MethodImpl W) (m : CallMessage W) (ep : Option String) :
    prop_keys_grow o (run_method o impl m ep).1.1 := by
  cases impl with
  | user f => exact prop_keys_grow_refl o
  | propGet =>
    intro iname k hk
    simp only [run_method]
    split
    · split <;> exact hk
    · exact hk
  | propGetAll =>
    intro iname k hk
    simp only [run_method]
    split
    · split <;> exact hk
    · exact hk
  | propSet =>
    intro iname k hk
    simp only [run_method]
    split
    · split
      · next r heq => exact set_ok_grow o _ _ _ ep r heq iname k hk
      · exact hk
    · exact hk

theorem object_call_grow {W : Type} [DecidableEq W] (o : DbusObject W)
    (m : CallMessage W) (ep : Option String) :
    prop_keys_grow o (o.call m ep).1.1 := by
  cases hfi : fmFind? m.interface_name o.interfaces with
  | none =>
    simp only [DbusObject.call, hfi]
    exact prop_keys_grow_refl o
  | some iface =>
    simp only [DbusObject.call, hfi, interface_call]
    cases hm : fmFind? m.member iface.dbus_methods with
    | none =>
      simp only [hm]
      exact prop_keys_grow_refl o
    | some method =>
      simp only [hm]
      exact run_method_grow o method.impl m ep

theorem scan_objects_grow {W : Type} [DecidableEq W] :
    ∀ (objs : List (DbusObject W)) (m : CallMessage W) (ep : Option String),
      List.Forall₂ prop_keys_grow objs (scan_objects objs m ep).1.1 := by
  intro objs m ep
  induction objs with
  | nil => exact List.Forall₂.nil
  | cons o rest ih =>
    by_cases hp : o.object_name = m.path
    · simp only [scan_objects, if_pos hp]
      exact List.Forall₂.cons (object_call_grow o m ep) (forall2_grow_refl rest)
    · simp only [scan_objects, if_neg hp]
      exact List.Forall₂.cons (prop_keys_grow_refl o) ih

/-- Claim C9 (confirmed): property-table key sets only grow — the
change-set computation of `set_properties` (in either mode) preserves every
existing key, and dispatching any method call through the server (covering
the built-in Properties Get/GetAll/Set handlers and user handlers) relates
the old and new object lists pointwise by key-set growth.  The snapshot and
introspection operations (`get_managed_objects`, `get_xml_for_path`) are
read-only functions of the state. -/
theorem property_keys_only_grow (W : Type) [DecidableEq W] :
    (∀ (m : FlatMap W) (v : List (String × W)) (update_mode : UpdateType)
        (k : String), (fmFind? k m).isSome = true →
      (fmFind? k (set_properties_updates m v update_mode).1).isSome = true) ∧
    (∀ (s : DbusObjectServer W) (msg : CallMessage W) (ep : Option String),
      List.Forall₂ prop_keys_grow s.objects
        ((on_method_call s msg ep).1.1.objects)) := by
  constructor
  · intro m v update_mode k h
    exact set_properties_updates_mono m v update_mode k h
  · intro s msg ep
    exact scan_objects_grow s.objects msg ep

/-- Witness for C9: a present key survives a concrete
`VALUE_CHANGE_ONLY` update that inserts a second key. -/
theorem property_keys_only_grow_witness :
    (fmFind? "a" [("a", (1 : Nat))]).isSome = true ∧
    (fmFind? "a" (set_properties_updates [("a", (1 : Nat))] [("b", 2)]
      .VALUE_CHANGE_ONLY).1).isSome = true :=
  ⟨rfl, (property_keys_only_grow Nat).1 [("a", 1)] [("b", 2)]
    .VALUE_CHANGE_ONLY "a" rfl⟩

theorem charsLt_irrefl : ∀ (l : List Char), charsLt l l = false := by
  intro l
  induction l with
  | nil => rfl
  | cons a as ih => simp [charsLt, Nat.lt_irrefl, ih]

theorem charsLt_trans : ∀ (x y z : List Char),
    charsLt x y = true → charsLt y z = true → charsLt x z = true := by
  intro x
  induction x with
  | nil =>
    intro y z h1 h2
    cases y with
    | nil => simp [charsLt] at h1
    | cons b bs =>
      cases z with
      | nil => simp [charsLt] at h2
      | cons c cs => simp [charsLt]
  | cons a as ih =>
    intro y z h1 h2
    cases y with
    | nil => simp [charsLt] at h1
    | cons b bs =>
      cases z with
      | nil => simp [charsLt] at h2
      | cons c cs =>
        simp only [charsLt] at h1 h2 ⊢
        split_ifs at h1 h2 ⊢ <;>
          first
          | rfl
          | (exact absurd h1 Bool.false_ne_true)
          | (exact absurd h2 Bool.false_ne_true)
          | (exact ih bs cs h1 h2)
          | (exfalso; omega)

theorem charsLt_conn : ∀ (x y : List Char), x ≠ y →
    charsLt x y = false → charsLt y x = true := by
  intro x
  induction x with
  | nil =>
    intro y hne h
    cases y with
    | nil => exact absurd rfl hne
    | cons b bs => simp [charsLt] at h
  | cons a as ih =>
    intro y hne h
    cases y with
    | nil => simp [charsLt]
    | cons b bs =>
      simp only [charsLt] at h ⊢
      split_ifs at h ⊢ <;>
        first
        | rfl
        | (exact absurd h.symm Bool.false_ne_true)
        | (apply ih bs ?_ h
           intro heq
           apply hne
           have hnat : a.toNat = b.toNat := by omega
           have hab : a = b := Char.ext (UInt32.ext hnat)
           rw [hab, heq])

theorem strLt_conn (a b : String) (hne : a ≠ b) (h : strLt a b = false) :
    strLt b a = true := by
  apply charsLt_conn a.data b.data ?_ h
  intro hd
  apply hne
  cases a
  cases b
  simp only at hd
  subst hd
  rfl

theorem strLt_ne (a b : String) (h : strLt a b = true) : a ≠ b := by
  intro heq
  subst heq
  rw [strLt, charsLt_irrefl] at h
  exact Bool.false_ne_true h

theorem strLt_trans (a b c : String) (h1 : strLt a b = true)
    (h2 : strLt b c = true) : strLt a c = true :=
  charsLt_trans a.data b.data c.data h1 h2

theorem fmSorted_tail {α : Type} (p : String × α) (rest : FlatMap α)
    (h : fmSorted (p :: rest) = true) : fmSorted rest = true := by
  cases rest with
  | nil => rfl
  | cons q r2 =>
    simp only [fmSorted, Bool.and_eq_true] at h
    exact h.2

theorem fmFind?_none_of_sorted_lt {α : Type} (k : String) :
    ∀ (m : FlatMap α) (k' : String) (v' : α),
      fmSorted ((k', v') :: m) = true → strLt k k' = true →
      fmFind? k ((k', v') :: m) = none := by
  intro m
  induction m with
  | nil =>
    intro k' v' _ hlt
    simp [fmFind?, (strLt_ne k k' hlt)]
  | cons q r2 ih =>
    intro k' v' hs hlt
    obtain ⟨k'', v''⟩ := q
    have h12 : strLt k' k'' = true := by
      simp only [fmSorted, Bool.and_eq_true] at hs
      exact hs.1
    have htail : fmSorted ((k'', v'') :: r2) = true := fmSorted_tail _ _ hs
    simp only [fmFind?, if_neg (strLt_ne k k' hlt)]
    exact ih k'' v'' htail (strLt_trans k k' k'' hlt h12)

theorem fmEmplace_present {α : Type} (k : String) (v : α) :
    ∀ (m : FlatMap α), fmSorted m = true → (fmFind? k m).isSome = true →
      fmEmplace k v m = m := by
  intro m
  induction m with
  | nil =>
    intro _ h
    simp [fmFind?] at h
  | cons p rest ih =>
    intro hs h
    obtain ⟨k', v'⟩ := p
    cases hlt : strLt k k' with
    | true =>
      rw [fmFind?_none_of_sorted_lt k rest k' v' hs hlt] at h
      simp at h
    | false =>
      by_cases heq : k = k'
      · subst heq
        simp [fmEmplace, hlt]
      · simp only [fmEmplace, hlt, Bool.false_eq_true, if_false, if_neg heq]
        have hrest : (fmFind? k rest).isSome = true := by
          simpa [fmFind?, heq] using h
        rw [ih (fmSorted_tail _ _ hs) hrest]

/-- Claim C10 (confirmed): registering a method under a name already
present in the (sorted) method table leaves the table unchanged —
`flat_map::emplace` keeps the original mapping — so a subsequent dispatch
through `DbusInterface::call` behaves exactly as before the duplicate
registration. -/
theorem register_method_keeps_first (W : Type) [DecidableEq W]
    (iface : DbusInterface W) (name : String) (method : DbusMethod W)
    (hs : fmSorted iface.dbus_methods = true)
    (h : (fmFind? name iface.dbus_methods).isSome = true) :
    iface.register_method name method = iface ∧
    ∀ (o : DbusObject W) (m : CallMessage W) (ep : Option String),
      interface_call o (iface.register_method name method) m ep =
        interface_call o iface m ep := by
  have he : fmEmplace name method iface.dbus_methods = iface.dbus_methods :=
    fmEmplace_present name method iface.dbus_methods hs h
  have hreg : iface.register_method name method = iface := by
    obtain ⟨onm, inm, dm, ds, pm⟩ := iface
    simp only [DbusInterface.register_method] at he ⊢
    rw [he]
  exact ⟨hreg, fun o m ep => by rw [hreg]⟩

/-- Witness for C10: registering a second handler under the
already-present name `M` leaves a concrete interface unchanged. -/
theorem register_method_keeps_first_witness :
    (fmSorted iface10.dbus_methods = true ∧
      (fmFind? "M" iface10.dbus_methods).isSome = true) ∧
    iface10.register_method "M" method10b = iface10 :=
  ⟨⟨rfl, rfl⟩,
    (register_method_keeps_first Nat iface10 "M" method10b rfl rfl).1⟩
